import Mathlib

/-!
Shallow embedding of the AENS client state machine from `aeternity/aens.py`.

The Python class `AEName` is modelled as a record `AEName`; each method that
performs network round trips becomes a pure function taking the remote
responses it would observe as explicit arguments (the environment) and
returning an `OpResult`: the Python return value or raised exception, the
object state after the call (Python mutations made before a `raise` are
kept, as in the source), and the trace of external calls issued.
-/

namespace Aens

/-- The `NameStatus` constants of `aens.py`. -/
inductive NameStatus where
  | REVOKED
  | UNKNOWN
  | AVAILABLE
  | PRECLAIMED
  | CLAIMED
  | TRANSFERRED
deriving DecidableEq, Repr

/-- A decoded JSON object modelled by its assoc list of top-level keys and
string values; `'k' in response` becomes a key-list membership test. -/
structure Response where
  keys : List String
deriving DecidableEq, Repr

/-- The commitment-hash response of `_get_commitment_hash`:
`response['commitment']` is present (`some`) or absent (KeyError). -/
structure CommitmentResp where
  commitment : Option String
deriving DecidableEq, Repr

/-- Pointer mappings (`self.pointers`): a JSON object as an assoc list. -/
abbrev Pointers := List (String × String)

/-- Result of the gateway lookup `external_http_get('name', ...)` in
`update_status`: either the `NameNotAvailable` failure or a response
carrying `name_ttl` and the (already JSON-decoded) `pointers`. -/
inductive LookupResult where
  | notFound
  | found (name_ttl : Nat) (pointers : Pointers)
deriving DecidableEq, Repr

/-- External calls issued by the client, in order (gateway HTTP calls,
height reads, the signing service, transaction submission, and the
blocking wait). -/
inductive ExtCall where
  | getHeight
  | externalHttpGet (path : String)
  | externalHttpPost (path : String)
  | internalHttpPost (path : String)
  | signTransaction
  | sendSignedTransaction
  | waitForNextBlock
deriving DecidableEq, Repr

/-- Exceptions raised by `aens.py`, each carrying the payload the source
attaches to it. -/
inductive AensError where
  | MissingPreclaim
  | TooEarlyClaim
  | PreclaimFailed (payload : CommitmentResp)
  | UpdateError (payload : Response)
  | AENSException (msg : String) (payload : Response)
  | NameNotAvailable (domain : String)
  | AssertionError (msg : String)
  | ValueError (msg : String)
deriving DecidableEq, Repr

/-- The mutable fields of a Python `AEName` object. -/
structure AEName where
  domain : String
  status : NameStatus
  preclaimed_block_height : Option Nat
  preclaimed_commitment_hash : Option String
  preclaim_salt : Option Nat
  name_ttl : Nat
  pointers : Pointers
deriving DecidableEq, Repr

/-- Outcome of one method call: Python return value or exception, the
object state afterwards, and the trace of external calls issued. -/
structure OpResult (α : Type) where
  result : Except AensError α
  state : AEName
  calls : List ExtCall

/-- `AEName.__init__` field initialisation (after `validate_name` passes). -/
def AEName.init (domain : String) : AEName :=
  { domain := domain
    status := NameStatus.UNKNOWN
    preclaimed_block_height := none
    preclaimed_commitment_hash := none
    preclaim_salt := none
    name_ttl := 0
    pointers := [] }

/-- Whether the first char list is a leading segment of the second
(model of Python `str.startswith`, over the character sequences). -/
def leading_seg : List Char → List Char → Bool
  | [], _ => true
  | _ :: _, [] => false
  | a :: as, b :: bs => a = b && leading_seg as bs

/-- Python `s.startswith(p)` over character sequences. -/
def str_startswith (s p : String) : Bool :=
  leading_seg p.data s.data

/-- Python `s.endswith(p)` over character sequences. -/
def str_endswith (s p : String) : Bool :=
  leading_seg p.data.reverse s.data.reverse

/-- `AEName.validate_address(address, raise_exception=False)`:
`address.startswith(('ak$', 'ok$'))`. -/
def validate_address (address : String) : Bool :=
  str_startswith address "ak$" || str_startswith address "ok$"

/-- `AEName.validate_name(domain, raise_exception=False)`:
`domain.endswith(('.aet', '.test'))`. -/
def validate_name (domain : String) : Bool :=
  str_endswith domain ".aet" || str_endswith domain ".test"

/-- `AEName.validate_pointer` exactly as written in the source:
`not validate_address(...) or not validate_name(...)`. -/
def validate_pointer (pointer : String) : Bool :=
  !validate_address pointer || !validate_name pointer

/-- The spec's words for `validatePointer` (refinement target, NOT the
source): true iff the value is a syntactically valid address OR a
syntactically valid name. -/
def validate_pointer_spec (pointer : String) : Bool :=
  validate_address pointer || validate_name pointer

/-- `name.encode('ascii')`: `some` byte list when every character is
ASCII, `none` when Python would raise UnicodeEncodeError. -/
def ascii_bytes (s : String) : Option (List Nat) :=
  if s.data.all (fun c => c.toNat < 128) then some (s.data.map Char.toNat) else none

/-- `AEName._encode_name(name) = 'nm$' + b58encode_check(name.encode('ascii'))`;
the external base58-check encoder is a parameter. -/
def encode_name (b58encode_check : List Nat → String) (name : String) : Option String :=
  (ascii_bytes name).map (fun bs => "nm$" ++ b58encode_check bs)

/-- `AEName.update_status(self)`: a successful lookup sets CLAIMED and
copies `name_ttl`/`pointers`; `NameNotAvailable` sets AVAILABLE only from
UNKNOWN. -/
def update_status (n : AEName) (r : LookupResult) : AEName :=
  match r with
  | LookupResult.found ttl ptrs =>
      { n with status := NameStatus.CLAIMED, name_ttl := ttl, pointers := ptrs }
  | LookupResult.notFound =>
      if n.status = NameStatus.UNKNOWN then { n with status := NameStatus.AVAILABLE } else n

/-- Environment for one `claim` call: the height returned by
`get_height()` and the `tx_hash` field of the claim-transaction response. -/
structure ClaimEnv where
  height : Nat
  tx_hash : String
deriving DecidableEq, Repr

/-- Environment for one `preclaim` call: the height from `get_height()`,
the value `random.randint` would produce, the commitment-hash response,
and the `tx_hash` of the preclaim-transaction response. -/
structure PreclaimEnv where
  height : Nat
  randomSalt : Nat
  commitmentResp : CommitmentResp
  tx_hash : String
deriving DecidableEq, Repr

/-- `AEName.claim(self, keypair, fee=1)`. -/
def claim (n : AEName) (env : ClaimEnv) : OpResult (String × Option Nat) :=
  match n.preclaimed_block_height with
  | none => ⟨Except.error AensError.MissingPreclaim, n, []⟩
  | some pbh =>
      if pbh ≥ env.height then
        ⟨Except.error AensError.TooEarlyClaim, n, [ExtCall.getHeight]⟩
      else
        ⟨Except.ok (env.tx_hash, n.preclaim_salt),
         { n with status := NameStatus.CLAIMED },
         [ExtCall.getHeight, ExtCall.externalHttpPost "/tx/name/claim",
          ExtCall.signTransaction, ExtCall.sendSignedTransaction]⟩

/-- Whether a call outcome is the `TooEarlyClaim` exception (the only
exception type `claim_blocking`'s `except` clause catches). -/
def isTooEarly {α : Type} : Except AensError α → Bool
  | Except.error AensError.TooEarlyClaim => true
  | _ => false

/-- `AEName.claim_blocking(self, keypair, fee=1)`: catch `TooEarlyClaim`
only, wait for the next block, and call `claim` once more; the method
itself returns `None`. -/
def claim_blocking (n : AEName) (env1 env2 : ClaimEnv) : OpResult Unit :=
  let r1 := claim n env1
  if isTooEarly r1.result then
    let r2 := claim r1.state env2
    ⟨r2.result.map (fun _ => ()), r2.state,
     r1.calls ++ ExtCall.waitForNextBlock :: r2.calls⟩
  else
    ⟨r1.result.map (fun _ => ()), r1.state, r1.calls⟩

/-- `AEName.preclaim(self, keypair, fee=1, salt=None)`: mutations made
before `_get_commitment_hash` raises are kept on the object, as in
Python. -/
def preclaim (n : AEName) (salt : Option Nat) (env : PreclaimEnv) : OpResult (String × Nat) :=
  let s := salt.getD env.randomSalt
  let n1 := { n with preclaimed_block_height := some env.height, preclaim_salt := some s }
  match env.commitmentResp.commitment with
  | none =>
      ⟨Except.error (AensError.PreclaimFailed env.commitmentResp), n1,
       [ExtCall.getHeight, ExtCall.externalHttpGet "commitment-hash"]⟩
  | some _ =>
      ⟨Except.ok (env.tx_hash, s),
       { n1 with status := NameStatus.PRECLAIMED },
       [ExtCall.getHeight, ExtCall.externalHttpGet "commitment-hash",
        ExtCall.externalHttpPost "/tx/name/preclaim",
        ExtCall.signTransaction, ExtCall.sendSignedTransaction]⟩

/-- The `target` argument of `AEName.update`: a plain string, or an
`Oracle` whose `oracle_id` may still be unset. -/
inductive Target where
  | str (s : String)
  | oracle (oracle_id : Option String)
deriving DecidableEq, Repr

/-- The pointer mapping `update` builds from the resolved target string:
`{'account_pubkey': t}` when it starts with `'ak'`, else
`{'oracle_pubkey': t}`. -/
def update_pointers_for (t : String) : Pointers :=
  if str_startswith t "ak" then [("account_pubkey", t)] else [("oracle_pubkey", t)]

/-- `AEName.update(self, target, ttl=50, fee=1)`. -/
def update (n : AEName) (target : Target) (ttl fee : Nat) (resp : Response) : OpResult Unit :=
  if n.status = NameStatus.CLAIMED then
    match target with
    | Target.oracle none =>
        ⟨Except.error (AensError.ValueError "You must register the oracle before using it as target"),
         n, []⟩
    | Target.oracle (some oid) =>
        if "name_hash" ∈ Response.keys resp then
          ⟨Except.ok (), { n with pointers := update_pointers_for oid },
           [ExtCall.internalHttpPost "name-update-tx"]⟩
        else
          ⟨Except.error (AensError.UpdateError resp), n,
           [ExtCall.internalHttpPost "name-update-tx"]⟩
    | Target.str s =>
        if "name_hash" ∈ Response.keys resp then
          ⟨Except.ok (), { n with pointers := update_pointers_for s },
           [ExtCall.internalHttpPost "name-update-tx"]⟩
        else
          ⟨Except.error (AensError.UpdateError resp), n,
           [ExtCall.internalHttpPost "name-update-tx"]⟩
  else
    ⟨Except.error (AensError.AssertionError "Must be claimed to update pointer"), n, []⟩

/-- `AEName.transfer_ownership(self, receipient_pubkey, fee=1)`. -/
def transfer_ownership (n : AEName) (receipient_pubkey : String) (resp : Response) : OpResult Unit :=
  if "name_hash" ∈ Response.keys resp then
    ⟨Except.ok (), { n with status := NameStatus.TRANSFERRED },
     [ExtCall.internalHttpPost "name-transfer-tx"]⟩
  else
    ⟨Except.error (AensError.AENSException "transfer ownership failed" resp), n,
     [ExtCall.internalHttpPost "name-transfer-tx"]⟩

/-- `AEName.revoke(self, fee=1)`. -/
def revoke (n : AEName) (resp : Response) : OpResult Unit :=
  if "name_hash" ∈ Response.keys resp then
    ⟨Except.ok (), { n with status := NameStatus.REVOKED },
     [ExtCall.internalHttpPost "name-revoke-tx"]⟩
  else
    ⟨Except.error (AensError.AENSException "Error revoking name" resp), n,
     [ExtCall.internalHttpPost "name-revoke-tx"]⟩

/-- `AEName.is_available(self)`: refresh the status, then test it. -/
def is_available (n : AEName) (r : LookupResult) : Bool × AEName :=
  let n1 := update_status n r
  (n1.status = NameStatus.AVAILABLE, n1)

/-- `AEName.check_claimed(self)`: refresh the status, then test it. -/
def check_claimed (n : AEName) (r : LookupResult) : Bool × AEName :=
  let n1 := update_status n r
  (n1.status = NameStatus.CLAIMED, n1)

/-- `AEName.full_claim_blocking(self, keypair, preclaim_fee=1, claim_fee=1)`. -/
def full_claim_blocking (n : AEName) (lr : LookupResult) (penv : PreclaimEnv)
    (cenv1 cenv2 : ClaimEnv) : OpResult Unit :=
  let av := is_available n lr
  if av.1 then
    let r1 := preclaim av.2 none penv
    match r1.result with
    | Except.error e =>
        ⟨Except.error e, r1.state, ExtCall.externalHttpGet "name" :: r1.calls⟩
    | Except.ok _ =>
        let r2 := claim_blocking r1.state cenv1 cenv2
        ⟨r2.result, r2.state, ExtCall.externalHttpGet "name" :: (r1.calls ++ r2.calls)⟩
  else
    ⟨Except.error (AensError.NameNotAvailable n.domain), av.2,
     [ExtCall.externalHttpGet "name"]⟩

/-- One caller-initiated operation on a Name, with the remote responses
it observes. -/
inductive Op where
  | opUpdateStatus (r : LookupResult)
  | opIsAvailable (r : LookupResult)
  | opCheckClaimed (r : LookupResult)
  | opPreclaim (salt : Option Nat) (env : PreclaimEnv)
  | opClaim (env : ClaimEnv)
  | opClaimBlocking (env1 env2 : ClaimEnv)
  | opFullClaimBlocking (lr : LookupResult) (penv : PreclaimEnv) (cenv1 cenv2 : ClaimEnv)
  | opUpdate (target : Target) (ttl fee : Nat) (resp : Response)
  | opTransfer (receipient_pubkey : String) (resp : Response)
  | opRevoke (resp : Response)

/-- The state reached after one operation (the object state after the
method returns or raises). -/
def step (n : AEName) : Op → AEName
  | Op.opUpdateStatus r => update_status n r
  | Op.opIsAvailable r => (is_available n r).2
  | Op.opCheckClaimed r => (check_claimed n r).2
  | Op.opPreclaim salt env => (preclaim n salt env).state
  | Op.opClaim env => (claim n env).state
  | Op.opClaimBlocking env1 env2 => (claim_blocking n env1 env2).state
  | Op.opFullClaimBlocking lr penv cenv1 cenv2 => (full_claim_blocking n lr penv cenv1 cenv2).state
  | Op.opUpdate target ttl fee resp => (update n target ttl fee resp).state
  | Op.opTransfer r resp => (transfer_ownership n r resp).state
  | Op.opRevoke resp => (revoke n resp).state

/-! ## Concrete fixtures used by witnesses and counterexamples -/

/-- A freshly constructed name (status UNKNOWN, nothing preclaimed). -/
def nameAlice : AEName := AEName.init "alice.test"

/-- `nameAlice` after recording a preclaim block height of 100. -/
def namePre100 : AEName := { nameAlice with preclaimed_block_height := some 100 }

/-- `nameAlice` with local status PRECLAIMED. -/
def namePreSt : AEName := { nameAlice with status := NameStatus.PRECLAIMED }

/-- `nameAlice` with local status CLAIMED. -/
def nameClSt : AEName := { nameAlice with status := NameStatus.CLAIMED }

/-! ## Helper lemmas -/

/-- Two strings with the same character data are equal. -/
lemma string_data_eq {s t : String} (h : s.data = t.data) : s = t := by
  cases s
  cases t
  exact congrArg String.mk h

/-- `isTooEarly` recognises exactly the `TooEarlyClaim` outcome. -/
lemma isTooEarly_iff {α : Type} (r : Except AensError α) :
    isTooEarly r = true ↔ r = Except.error AensError.TooEarlyClaim := by
  cases r with
  | ok v => simp [isTooEarly]
  | error e => cases e <;> simp [isTooEarly]

/-- `claim` never issues the blocking wait itself. -/
lemma claim_no_wait (n : AEName) (env : ClaimEnv) :
    ExtCall.waitForNextBlock ∉ (claim n env).calls := by
  cases hOpt : n.preclaimed_block_height with
  | none => simp [claim, hOpt]
  | some pbh =>
      by_cases hge : pbh ≥ env.height
      · simp [claim, hOpt, hge]
      · simp [claim, hOpt, hge]

/-- A `claim` that raises `TooEarlyClaim` leaves the object unchanged. -/
lemma claim_tooEarly_state (n : AEName) (env : ClaimEnv)
    (h : (claim n env).result = Except.error AensError.TooEarlyClaim) :
    (claim n env).state = n := by
  cases hOpt : n.preclaimed_block_height with
  | none => simp [claim, hOpt]
  | some pbh =>
      by_cases hge : pbh ≥ env.height
      · simp [claim, hOpt, hge]
      · simp [claim, hOpt, hge] at h

/-! ## Claim theorems -/

/-- C2: with `preclaimed_block_height` unset, `claim` raises
`MissingPreclaim` whatever the current status, mutates nothing and issues
no external call at all. -/
theorem claim_missing_preclaim (n : AEName) (env : ClaimEnv)
    (h : n.preclaimed_block_height = none) :
    (claim n env).result = Except.error AensError.MissingPreclaim ∧
    (claim n env).state = n ∧
    (claim n env).calls = [] := by
  unfold claim
  rw [h]
  exact ⟨rfl, rfl, rfl⟩

/-- Witness for C2 at a freshly constructed name. -/
theorem claim_missing_preclaim_w :
    nameAlice.preclaimed_block_height = none ∧
    ((claim nameAlice ⟨7, "th"⟩).result = Except.error AensError.MissingPreclaim ∧
      (claim nameAlice ⟨7, "th"⟩).state = nameAlice ∧
      (claim nameAlice ⟨7, "th"⟩).calls = []) :=
  ⟨rfl, claim_missing_preclaim nameAlice ⟨7, "th"⟩ rfl⟩

/-- C1: with `preclaimed_block_height = some pbh`, `claim` raises
`TooEarlyClaim` exactly when the gateway height is not strictly greater
than `pbh`, and with height at least `pbh + 1` it builds, signs and
submits the claim transaction and sets status CLAIMED. -/
theorem claim_height_gate (n : AEName) (env : ClaimEnv) (pbh : Nat)
    (h : n.preclaimed_block_height = some pbh) :
    ((claim n env).result = Except.error AensError.TooEarlyClaim ↔ ¬ pbh < env.height) ∧
    (pbh + 1 ≤ env.height →
      (claim n env).result = Except.ok (env.tx_hash, n.preclaim_salt) ∧
      (claim n env).state = { n with status := NameStatus.CLAIMED } ∧
      (claim n env).calls = [ExtCall.getHeight, ExtCall.externalHttpPost "/tx/name/claim",
        ExtCall.signTransaction, ExtCall.sendSignedTransaction]) := by
  simp only [claim, h]
  by_cases hge : pbh ≥ env.height
  · rw [if_pos hge]
    refine ⟨⟨fun _ => ?_, fun _ => rfl⟩, fun hlt => absurd hlt ?_⟩
    · omega
    · omega
  · rw [if_neg hge]
    refine ⟨⟨fun hc => ?_, fun hnot => ?_⟩, fun _ => ⟨rfl, rfl, rfl⟩⟩
    · simp at hc
    · exact absurd (show pbh ≥ env.height by omega) hge

/-- Witness for C1: preclaimed at height 100, gateway reports 101. -/
theorem claim_height_gate_w :
    namePre100.preclaimed_block_height = some 100 ∧
    (((claim namePre100 ⟨101, "th"⟩).result = Except.error AensError.TooEarlyClaim ↔
        ¬ 100 < 101) ∧
      (100 + 1 ≤ 101 →
        (claim namePre100 ⟨101, "th"⟩).result = Except.ok ("th", namePre100.preclaim_salt) ∧
        (claim namePre100 ⟨101, "th"⟩).state = { namePre100 with status := NameStatus.CLAIMED } ∧
        (claim namePre100 ⟨101, "th"⟩).calls =
          [ExtCall.getHeight, ExtCall.externalHttpPost "/tx/name/claim",
           ExtCall.signTransaction, ExtCall.sendSignedTransaction])) :=
  ⟨rfl, claim_height_gate namePre100 ⟨101, "th"⟩ 100 rfl⟩

/-- C3: `update_status` on a successful lookup sets CLAIMED and copies
`name_ttl`/`pointers`; on a NotFound failure it moves UNKNOWN to
AVAILABLE and leaves every other status (PRECLAIMED, CLAIMED, ...)
untouched. -/
theorem update_status_spec (n : AEName) :
    (∀ (ttl : Nat) (ptrs : Pointers),
      update_status n (LookupResult.found ttl ptrs) =
        { n with status := NameStatus.CLAIMED, name_ttl := ttl, pointers := ptrs }) ∧
    (n.status = NameStatus.UNKNOWN →
      update_status n LookupResult.notFound = { n with status := NameStatus.AVAILABLE }) ∧
    (n.status ≠ NameStatus.UNKNOWN →
      update_status n LookupResult.notFound = n) := by
  refine ⟨fun ttl ptrs => rfl, fun h => ?_, fun h => ?_⟩
  · simp [update_status, h]
  · simp [update_status, h]

/-- Witness for C3: a PRECLAIMED name survives a gateway NotFound, an
UNKNOWN one becomes AVAILABLE, and a found response claims it. -/
theorem update_status_spec_w :
    namePreSt.status ≠ NameStatus.UNKNOWN ∧
    update_status namePreSt LookupResult.notFound = namePreSt ∧
    nameAlice.status = NameStatus.UNKNOWN ∧
    update_status nameAlice LookupResult.notFound =
      { nameAlice with status := NameStatus.AVAILABLE } ∧
    update_status nameAlice (LookupResult.found 600 [("account_pubkey", "ak$x")]) =
      { nameAlice with
          status := NameStatus.CLAIMED
          name_ttl := 600
          pointers := [("account_pubkey", "ak$x")] } :=
  ⟨by decide,
   (update_status_spec namePreSt).2.2 (by decide),
   rfl,
   (update_status_spec nameAlice).2.1 rfl,
   (update_status_spec nameAlice).1 600 [("account_pubkey", "ak$x")]⟩

/-- A response not echoing `name_hash`. -/
def respNoHash : Response := { keys := ["tx_hash"] }

/-- A response echoing `name_hash`. -/
def respHash : Response := { keys := ["name_hash", "tx_hash"] }

/-- C4: `claim_blocking` calls `claim`; exactly when that call raises
`TooEarlyClaim` it waits for the next block once and retries `claim`
exactly once more, and the retry's outcome (including a second
`TooEarlyClaim` or any other failure) is what the caller sees; any other
first outcome is passed through with no wait and no retry. -/
theorem claim_blocking_spec (n : AEName) (env1 env2 : ClaimEnv) :
    ((claim n env1).result = Except.error AensError.TooEarlyClaim →
      claim_blocking n env1 env2 =
        ⟨(claim n env2).result.map (fun _ => ()), (claim n env2).state,
         (claim n env1).calls ++ ExtCall.waitForNextBlock :: (claim n env2).calls⟩) ∧
    ((claim n env1).result ≠ Except.error AensError.TooEarlyClaim →
      claim_blocking n env1 env2 =
        ⟨(claim n env1).result.map (fun _ => ()), (claim n env1).state, (claim n env1).calls⟩) ∧
    ((claim n env1).result = Except.error AensError.TooEarlyClaim →
      (claim_blocking n env1 env2).calls.count ExtCall.waitForNextBlock = 1) ∧
    ((claim n env1).result ≠ Except.error AensError.TooEarlyClaim →
      (claim_blocking n env1 env2).calls.count ExtCall.waitForNextBlock = 0) := by
  by_cases ht : isTooEarly (claim n env1).result = true
  · have hres := (isTooEarly_iff (claim n env1).result).mp ht
    have hst := claim_tooEarly_state n env1 hres
    have hcb : claim_blocking n env1 env2 =
        ⟨(claim n env2).result.map (fun _ => ()), (claim n env2).state,
         (claim n env1).calls ++ ExtCall.waitForNextBlock :: (claim n env2).calls⟩ := by
      simp only [claim_blocking]
      rw [if_pos ht, hst]
    refine ⟨fun _ => hcb, fun hne => absurd hres hne, fun _ => ?_, fun hne => absurd hres hne⟩
    rw [hcb]
    simp [List.count_append, List.count_cons,
      List.count_eq_zero.mpr (claim_no_wait n env1),
      List.count_eq_zero.mpr (claim_no_wait n env2)]
  · have hres : (claim n env1).result ≠ Except.error AensError.TooEarlyClaim := by
      intro hc
      exact ht ((isTooEarly_iff (claim n env1).result).mpr hc)
    have hcb : claim_blocking n env1 env2 =
        ⟨(claim n env1).result.map (fun _ => ()), (claim n env1).state, (claim n env1).calls⟩ := by
      simp only [claim_blocking]
      rw [if_neg ht]
    refine ⟨fun hc => absurd hc hres, fun _ => hcb, fun hc => absurd hc hres, fun _ => ?_⟩
    rw [hcb]
    exact List.count_eq_zero.mpr (claim_no_wait n env1)

/-- Witness for C4: preclaimed at height 100, the gateway still reports
height 100 on the first `claim` and 101 after the wait. -/
theorem claim_blocking_spec_w :
    (claim namePre100 ⟨100, "t1"⟩).result = Except.error AensError.TooEarlyClaim ∧
    claim_blocking namePre100 ⟨100, "t1"⟩ ⟨101, "t2"⟩ =
      ⟨(claim namePre100 ⟨101, "t2"⟩).result.map (fun _ => ()),
       (claim namePre100 ⟨101, "t2"⟩).state,
       (claim namePre100 ⟨100, "t1"⟩).calls ++
         ExtCall.waitForNextBlock :: (claim namePre100 ⟨101, "t2"⟩).calls⟩ ∧
    (claim_blocking namePre100 ⟨100, "t1"⟩ ⟨101, "t2"⟩).calls.count ExtCall.waitForNextBlock = 1 :=
  ⟨rfl,
   (claim_blocking_spec namePre100 ⟨100, "t1"⟩ ⟨101, "t2"⟩).1 rfl,
   (claim_blocking_spec namePre100 ⟨100, "t1"⟩ ⟨101, "t2"⟩).2.2.1 rfl⟩

/-- C7: on a CLAIMED name, `revoke` with a response lacking the
`name_hash` echo raises the generic revoke failure carrying the raw
response and leaves the object (in particular its CLAIMED status)
unchanged; with the echo present it sets status REVOKED. -/
theorem revoke_spec (n : AEName) (resp : Response) (h : n.status = NameStatus.CLAIMED) :
    ("name_hash" ∉ Response.keys resp →
      (revoke n resp).result = Except.error (AensError.AENSException "Error revoking name" resp) ∧
      (revoke n resp).state = n ∧
      (revoke n resp).state.status = NameStatus.CLAIMED) ∧
    ("name_hash" ∈ Response.keys resp →
      (revoke n resp).result = Except.ok () ∧
      (revoke n resp).state = { n with status := NameStatus.REVOKED }) := by
  constructor
  · intro hk
    refine ⟨?_, ?_, ?_⟩ <;> simp [revoke, hk, h]
  · intro hk
    constructor <;> simp [revoke, hk]

/-- Witness for C7: a CLAIMED name and a response without `name_hash`. -/
theorem revoke_spec_w :
    nameClSt.status = NameStatus.CLAIMED ∧
    (("name_hash" ∉ Response.keys respNoHash →
        (revoke nameClSt respNoHash).result =
          Except.error (AensError.AENSException "Error revoking name" respNoHash) ∧
        (revoke nameClSt respNoHash).state = nameClSt ∧
        (revoke nameClSt respNoHash).state.status = NameStatus.CLAIMED) ∧
      ("name_hash" ∈ Response.keys respNoHash →
        (revoke nameClSt respNoHash).result = Except.ok () ∧
        (revoke nameClSt respNoHash).state = { nameClSt with status := NameStatus.REVOKED })) :=
  ⟨rfl, revoke_spec nameClSt respNoHash rfl⟩

/-- C8: on a non-CLAIMED name, `update` fails on its precondition with
the assertion message, mutates nothing and issues no external call. -/
theorem update_requires_claimed (n : AEName) (target : Target) (ttl fee : Nat) (resp : Response)
    (h : n.status ≠ NameStatus.CLAIMED) :
    (update n target ttl fee resp).result =
      Except.error (AensError.AssertionError "Must be claimed to update pointer") ∧
    (update n target ttl fee resp).state = n ∧
    (update n target ttl fee resp).calls = [] := by
  refine ⟨?_, ?_, ?_⟩ <;> simp [update, h]

/-- Witness for C8: a fresh UNKNOWN name rejects `update` locally. -/
theorem update_requires_claimed_w :
    nameAlice.status ≠ NameStatus.CLAIMED ∧
    ((update nameAlice (Target.str "ak$x") 50 1 respHash).result =
        Except.error (AensError.AssertionError "Must be claimed to update pointer") ∧
      (update nameAlice (Target.str "ak$x") 50 1 respHash).state = nameAlice ∧
      (update nameAlice (Target.str "ak$x") 50 1 respHash).calls = []) :=
  ⟨by decide, update_requires_claimed nameAlice (Target.str "ak$x") 50 1 respHash (by decide)⟩

/-- C10: when `update` reaches the gateway (status CLAIMED, target
resolvable) and the response lacks the `name_hash` echo, it raises
`UpdateError` carrying that response and leaves the object — pointers and
status included — exactly as before; the pointer mapping is overwritten
only on a response containing the echo. -/
theorem update_error_preserves (n : AEName) (target : Target) (ttl fee : Nat) (resp : Response)
    (h : n.status = NameStatus.CLAIMED) (ht : target ≠ Target.oracle none)
    (hk : "name_hash" ∉ Response.keys resp) :
    (update n target ttl fee resp).result = Except.error (AensError.UpdateError resp) ∧
    (update n target ttl fee resp).state = n ∧
    (∀ resp2 : Response, (update n target ttl fee resp2).state.pointers ≠ n.pointers →
      "name_hash" ∈ Response.keys resp2) := by
  cases target with
  | oracle o =>
      cases o with
      | none => exact absurd rfl ht
      | some oid =>
          refine ⟨by simp [update, h, hk], by simp [update, h, hk], ?_⟩
          intro resp2 hp
          by_cases hk2 : "name_hash" ∈ Response.keys resp2
          · exact hk2
          · exact absurd (by simp [update, h, hk2]) hp
  | str s =>
      refine ⟨by simp [update, h, hk], by simp [update, h, hk], ?_⟩
      intro resp2 hp
      by_cases hk2 : "name_hash" ∈ Response.keys resp2
      · exact hk2
      · exact absurd (by simp [update, h, hk2]) hp

/-- Witness for C10: a CLAIMED name, a plain string target, and a
response without `name_hash`. -/
theorem update_error_preserves_w :
    nameClSt.status = NameStatus.CLAIMED ∧
    Target.str "ak$pt" ≠ Target.oracle none ∧
    "name_hash" ∉ Response.keys respNoHash ∧
    ((update nameClSt (Target.str "ak$pt") 50 1 respNoHash).result =
        Except.error (AensError.UpdateError respNoHash) ∧
      (update nameClSt (Target.str "ak$pt") 50 1 respNoHash).state = nameClSt ∧
      (∀ resp2 : Response,
        (update nameClSt (Target.str "ak$pt") 50 1 resp2).state.pointers ≠ nameClSt.pointers →
        "name_hash" ∈ Response.keys resp2)) :=
  ⟨rfl, by decide, by decide,
   update_error_preserves nameClSt (Target.str "ak$pt") 50 1 respNoHash rfl (by decide)
     (by decide)⟩

/-- C5: the claim fails on the code: `validate_pointer` as written is
`not validate_address(...) or not validate_name(...)`, which returns
`True` on `"xyz"` (neither a valid address nor a valid name) and `False`
on `"ak$a.test"` (both), the opposite of the specified
"valid address OR valid name" behaviour captured by
`validate_pointer_spec`. -/
theorem validate_pointer_divergence :
    validate_pointer "xyz" = true ∧
    validate_address "xyz" = false ∧
    validate_name "xyz" = false ∧
    validate_pointer_spec "xyz" = false ∧
    validate_pointer "ak$a.test" = false ∧
    validate_pointer_spec "ak$a.test" = true := by
  decide

/-! ## Status reachability (C6) -/

/-- Statuses an operation other than transfer/revoke can leave behind:
the old status, or one of the availability/claim-path statuses. -/
def benign (old new : NameStatus) : Prop :=
  new = old ∨ new = NameStatus.AVAILABLE ∨ new = NameStatus.PRECLAIMED ∨
    new = NameStatus.CLAIMED

lemma benign_trans {a b c : NameStatus} (h1 : benign a b) (h2 : benign b c) : benign a c := by
  rcases h2 with h | h | h | h
  · rw [h]
    exact h1
  · exact Or.inr (Or.inl h)
  · exact Or.inr (Or.inr (Or.inl h))
  · exact Or.inr (Or.inr (Or.inr h))

lemma benign_no_terminal {old new : NameStatus} (hb : benign old new) :
    (new = NameStatus.TRANSFERRED → old = NameStatus.TRANSFERRED) ∧
    (new = NameStatus.REVOKED → old = NameStatus.REVOKED) := by
  rcases hb with h | h | h | h <;> constructor <;> intro ht <;> simp_all

lemma update_status_benign (n : AEName) (r : LookupResult) :
    benign n.status (update_status n r).status := by
  cases r with
  | found ttl ptrs => exact Or.inr (Or.inr (Or.inr rfl))
  | notFound =>
      by_cases h : n.status = NameStatus.UNKNOWN
      · exact Or.inr (Or.inl (by simp [update_status, h]))
      · exact Or.inl (by simp [update_status, h])

lemma claim_benign (n : AEName) (env : ClaimEnv) :
    benign n.status (claim n env).state.status := by
  cases hOpt : n.preclaimed_block_height with
  | none => exact Or.inl (by simp [claim, hOpt])
  | some pbh =>
      by_cases hge : pbh ≥ env.height
      · exact Or.inl (by simp [claim, hOpt, hge])
      · exact Or.inr (Or.inr (Or.inr (by simp [claim, hOpt, hge])))

lemma preclaim_benign (n : AEName) (salt : Option Nat) (env : PreclaimEnv) :
    benign n.status (preclaim n salt env).state.status := by
  cases hc : env.commitmentResp.commitment with
  | none => exact Or.inl (by simp [preclaim, hc])
  | some c => exact Or.inr (Or.inr (Or.inl (by simp [preclaim, hc])))

lemma claim_blocking_benign (n : AEName) (env1 env2 : ClaimEnv) :
    benign n.status (claim_blocking n env1 env2).state.status := by
  by_cases ht : isTooEarly (claim n env1).result = true
  · have hst : (claim_blocking n env1 env2).state = (claim n env2).state := by
      simp only [claim_blocking]
      rw [if_pos ht, claim_tooEarly_state n env1 ((isTooEarly_iff (claim n env1).result).mp ht)]
    rw [hst]
    exact claim_benign n env2
  · have hst : (claim_blocking n env1 env2).state = (claim n env1).state := by
      simp only [claim_blocking]
      rw [if_neg ht]
    rw [hst]
    exact claim_benign n env1

lemma update_keeps_status (n : AEName) (target : Target) (ttl fee : Nat) (resp : Response) :
    (update n target ttl fee resp).state.status = n.status := by
  by_cases h : n.status = NameStatus.CLAIMED
  · cases target with
    | oracle o =>
        cases o with
        | none => simp [update, h]
        | some oid =>
            by_cases hk : "name_hash" ∈ Response.keys resp
            · simp [update, h, hk]
            · simp [update, h, hk]
    | str s =>
        by_cases hk : "name_hash" ∈ Response.keys resp
        · simp [update, h, hk]
        · simp [update, h, hk]
  · simp [update, h]

lemma fcb_benign (n : AEName) (lr : LookupResult) (penv : PreclaimEnv)
    (cenv1 cenv2 : ClaimEnv) :
    benign n.status (full_claim_blocking n lr penv cenv1 cenv2).state.status := by
  have h0 := update_status_benign n lr
  have h1 := preclaim_benign (update_status n lr) none penv
  have h2 := claim_blocking_benign (preclaim (update_status n lr) none penv).state cenv1 cenv2
  simp only [full_claim_blocking, is_available]
  split
  · split
    · exact benign_trans h0 h1
    · exact benign_trans h0 (benign_trans h1 h2)
  · exact h0

lemma transfer_status (n : AEName) (r : String) (resp : Response) :
    (transfer_ownership n r resp).state.status = NameStatus.TRANSFERRED ∨
      (transfer_ownership n r resp).state = n := by
  by_cases hk : "name_hash" ∈ Response.keys resp
  · exact Or.inl (by simp [transfer_ownership, hk])
  · exact Or.inr (by simp [transfer_ownership, hk])

lemma revoke_status (n : AEName) (resp : Response) :
    (revoke n resp).state.status = NameStatus.REVOKED ∨ (revoke n resp).state = n := by
  by_cases hk : "name_hash" ∈ Response.keys resp
  · exact Or.inl (by simp [revoke, hk])
  · exact Or.inr (by simp [revoke, hk])

/-- C6 counterexample: the code never checks the current status in
`revoke`, so a fresh UNKNOWN (hence non-CLAIMED) name whose revoke
response echoes `name_hash` moves straight to REVOKED. -/
theorem revoke_from_unknown :
    nameAlice.status = NameStatus.UNKNOWN ∧
    nameAlice.status ≠ NameStatus.CLAIMED ∧
    (revoke nameAlice respHash).result = Except.ok () ∧
    (revoke nameAlice respHash).state.status = NameStatus.REVOKED :=
  ⟨rfl, by decide, rfl, rfl⟩

/-- C6 (amended): TRANSFERRED is reached only by `transfer_ownership`
and REVOKED only by `revoke` — no other operation ever produces those
statuses — but neither operation checks the current status: a successful
response moves a Name of any status (CLAIMED or not) to
TRANSFERRED/REVOKED. -/
theorem status_one_directional (n : AEName) (op : Op) :
    ((step n op).status = NameStatus.TRANSFERRED →
      n.status = NameStatus.TRANSFERRED ∨ ∃ r resp, op = Op.opTransfer r resp) ∧
    ((step n op).status = NameStatus.REVOKED →
      n.status = NameStatus.REVOKED ∨ ∃ resp, op = Op.opRevoke resp) ∧
    (∀ (r : String) (resp : Response), "name_hash" ∈ Response.keys resp →
      (transfer_ownership n r resp).state.status = NameStatus.TRANSFERRED ∧
      (revoke n resp).state.status = NameStatus.REVOKED) := by
  refine ⟨?_, ?_, fun r resp hk => ⟨by simp [transfer_ownership, hk], by simp [revoke, hk]⟩⟩
  · intro htr
    cases op with
    | opUpdateStatus r =>
        exact Or.inl ((benign_no_terminal (update_status_benign n r)).1 htr)
    | opIsAvailable r =>
        exact Or.inl ((benign_no_terminal (update_status_benign n r)).1 htr)
    | opCheckClaimed r =>
        exact Or.inl ((benign_no_terminal (update_status_benign n r)).1 htr)
    | opPreclaim salt env =>
        exact Or.inl ((benign_no_terminal (preclaim_benign n salt env)).1 htr)
    | opClaim env =>
        exact Or.inl ((benign_no_terminal (claim_benign n env)).1 htr)
    | opClaimBlocking env1 env2 =>
        exact Or.inl ((benign_no_terminal (claim_blocking_benign n env1 env2)).1 htr)
    | opFullClaimBlocking lr penv cenv1 cenv2 =>
        exact Or.inl ((benign_no_terminal (fcb_benign n lr penv cenv1 cenv2)).1 htr)
    | opUpdate target ttl fee resp =>
        exact Or.inl ((update_keeps_status n target ttl fee resp) ▸ htr)
    | opTransfer r resp => exact Or.inr ⟨r, resp, rfl⟩
    | opRevoke resp =>
        rcases revoke_status n resp with h | h
        · exact absurd (h.symm.trans htr) (by decide)
        · exact Or.inl (by rw [step, h] at htr; exact htr)
  · intro hrv
    cases op with
    | opUpdateStatus r =>
        exact Or.inl ((benign_no_terminal (update_status_benign n r)).2 hrv)
    | opIsAvailable r =>
        exact Or.inl ((benign_no_terminal (update_status_benign n r)).2 hrv)
    | opCheckClaimed r =>
        exact Or.inl ((benign_no_terminal (update_status_benign n r)).2 hrv)
    | opPreclaim salt env =>
        exact Or.inl ((benign_no_terminal (preclaim_benign n salt env)).2 hrv)
    | opClaim env =>
        exact Or.inl ((benign_no_terminal (claim_benign n env)).2 hrv)
    | opClaimBlocking env1 env2 =>
        exact Or.inl ((benign_no_terminal (claim_blocking_benign n env1 env2)).2 hrv)
    | opFullClaimBlocking lr penv cenv1 cenv2 =>
        exact Or.inl ((benign_no_terminal (fcb_benign n lr penv cenv1 cenv2)).2 hrv)
    | opUpdate target ttl fee resp =>
        exact Or.inl ((update_keeps_status n target ttl fee resp) ▸ hrv)
    | opTransfer r resp =>
        rcases transfer_status n r resp with h | h
        · exact absurd (h.symm.trans hrv) (by decide)
        · exact Or.inl (by rw [step, h] at hrv; exact hrv)
    | opRevoke resp => exact Or.inr ⟨resp, rfl⟩

/-- Witness for C6's amended statement, at a CLAIMED name and a
successful revoke. -/
theorem status_one_directional_w :
    ((step nameClSt (Op.opRevoke respHash)).status = NameStatus.TRANSFERRED →
      nameClSt.status = NameStatus.TRANSFERRED ∨
        ∃ r resp, Op.opRevoke respHash = Op.opTransfer r resp) ∧
    ((step nameClSt (Op.opRevoke respHash)).status = NameStatus.REVOKED →
      nameClSt.status = NameStatus.REVOKED ∨
        ∃ resp, Op.opRevoke respHash = Op.opRevoke resp) ∧
    (∀ (r : String) (resp : Response), "name_hash" ∈ Response.keys resp →
      (transfer_ownership nameClSt r resp).state.status = NameStatus.TRANSFERRED ∧
      (revoke nameClSt resp).state.status = NameStatus.REVOKED) :=
  status_one_directional nameClSt (Op.opRevoke respHash)

/-! ## Injectivity of `encode_name` (C9) -/

/-- Unary-with-separator rendering of one byte list entry. -/
def unary_chars : List Nat → List Char
  | [] => []
  | n :: rest => List.replicate n 'x' ++ 'y' :: unary_chars rest

/-- A concrete injective stand-in for the external base58-check encoder,
used only to instantiate C9's injectivity hypothesis in its witness. -/
def unary_string (l : List Nat) : String :=
  String.mk (unary_chars l)

lemma replicate_xy_eq : ∀ (a b : Nat) (r1 r2 : List Char),
    List.replicate a 'x' ++ 'y' :: r1 = List.replicate b 'x' ++ 'y' :: r2 →
    a = b ∧ r1 = r2 := by
  intro a
  induction a with
  | zero =>
      intro b r1 r2 h
      cases b with
      | zero => exact ⟨rfl, by simpa using h⟩
      | succ b =>
          rw [List.replicate_succ] at h
          simp only [List.replicate_zero, List.nil_append, List.cons_append,
            List.cons.injEq] at h
          exact absurd h.1 (by decide)
  | succ a ih =>
      intro b r1 r2 h
      cases b with
      | zero =>
          rw [List.replicate_succ] at h
          simp only [List.replicate_zero, List.nil_append, List.cons_append,
            List.cons.injEq] at h
          exact absurd h.1 (by decide)
      | succ b =>
          rw [List.replicate_succ, List.replicate_succ] at h
          simp only [List.cons_append, List.cons.injEq] at h
          obtain ⟨hab, ht⟩ := ih b r1 r2 h.2
          exact ⟨by rw [hab], ht⟩

lemma unary_chars_inj : ∀ l1 l2 : List Nat, unary_chars l1 = unary_chars l2 → l1 = l2 := by
  intro l1
  induction l1 with
  | nil =>
      intro l2 h
      cases l2 with
      | nil => rfl
      | cons b bs =>
          exfalso
          simp only [unary_chars] at h
          exact absurd h.symm (by simp)
  | cons a as ih =>
      intro l2 h
      cases l2 with
      | nil =>
          exfalso
          simp only [unary_chars] at h
          exact absurd h (by simp)
      | cons b bs =>
          simp only [unary_chars] at h
          obtain ⟨hab, ht⟩ := replicate_xy_eq a b (unary_chars as) (unary_chars bs) h
          rw [hab, ih bs ht]

lemma unary_string_injective : Function.Injective unary_string := by
  intro l1 l2 h
  exact unary_chars_inj l1 l2 (congrArg String.data h)

lemma char_toNat_injective : Function.Injective Char.toNat := by
  intro c1 c2 h
  have h2 := congrArg Char.ofNat h
  rwa [Char.ofNat_toNat, Char.ofNat_toNat] at h2

lemma ascii_bytes_some {s : String} {bs : List Nat} (h : ascii_bytes s = some bs) :
    bs = s.data.map Char.toNat := by
  unfold ascii_bytes at h
  split at h
  · exact (Option.some.inj h).symm
  · exact absurd h (by simp)

/-- C9: `_encode_name` is injective on distinct valid domains, assuming
the underlying checksummed base58 encoding is injective on byte strings:
ASCII encoding is injective, the external encoder is injective by
hypothesis, and the fixed `'nm$'` prefix preserves distinctness. -/
theorem encode_name_injective (b58encode_check : List Nat → String)
    (hb : Function.Injective b58encode_check)
    (d1 d2 : String) (hv1 : validate_name d1 = true) (hv2 : validate_name d2 = true)
    (hne : d1 ≠ d2) (e1 e2 : String)
    (h1 : encode_name b58encode_check d1 = some e1)
    (h2 : encode_name b58encode_check d2 = some e2) :
    e1 ≠ e2 := by
  unfold encode_name at h1 h2
  rw [Option.map_eq_some'] at h1 h2
  obtain ⟨bs1, hab1, he1⟩ := h1
  obtain ⟨bs2, hab2, he2⟩ := h2
  intro he
  apply hne
  have happ : "nm$" ++ b58encode_check bs1 = "nm$" ++ b58encode_check bs2 := by
    rw [he1, he2, he]
  have hdata := congrArg String.data happ
  rw [String.data_append, String.data_append] at hdata
  have hb58 : b58encode_check bs1 = b58encode_check bs2 :=
    string_data_eq (List.append_cancel_left hdata)
  have hbs : bs1 = bs2 := hb hb58
  rw [ascii_bytes_some hab1, ascii_bytes_some hab2] at hbs
  exact string_data_eq (List.map_injective_iff.mpr char_toNat_injective hbs)

/-- Witness for C9: two distinct valid domains, the unary injective
encoder in place of base58-check, and the two concrete encodings. -/
theorem encode_name_injective_w :
    validate_name "a.test" = true ∧
    validate_name "b.test" = true ∧
    ("a.test" : String) ≠ "b.test" ∧
    encode_name unary_string "a.test" =
      some ("nm$" ++ unary_string ("a.test".data.map Char.toNat)) ∧
    encode_name unary_string "b.test" =
      some ("nm$" ++ unary_string ("b.test".data.map Char.toNat)) ∧
    "nm$" ++ unary_string ("a.test".data.map Char.toNat) ≠
      "nm$" ++ unary_string ("b.test".data.map Char.toNat) :=
  ⟨rfl, rfl, by decide, rfl, rfl,
   encode_name_injective unary_string unary_string_injective "a.test" "b.test" rfl rfl
     (by decide) _ _ rfl rfl⟩

end Aens
